import Mathlib

set_option maxHeartbeats 1000000
set_option maxRecDepth 4000

/-!
Shallow embedding of the core of the conversational-AI repository and proofs
about it.

Embedded components:
* `src/semantic_layer/models.py` — the data model (`Metric`, `Dimension`,
  `QueryIntent`, `SQLQuery`).
* `src/semantic_layer/semantic_layer.py` — the catalog lookups
  (`get_metric`, `get_dimension`) and the intent-to-SQL compiler
  (`intent_to_sql` with `_determine_fact_table`, `_build_joins`,
  `_generate_explanation`).
* `src/conversation/memory.py` — the conversation state
  (`ConversationTurn`, `ConversationMemory`), `add_turn`,
  `resolve_follow_up`, and the JSON persistence (`_save_history`,
  `_load_history`).

Conventions of the embedding: Python dicts keyed by strings become
association lists in insertion order; Python `Optional[T]` becomes
`Option T`; Python truthiness of a list/string/optional is spelled out at
each use site (empty list, empty string, `None`, and integer `0` are
falsy); machine integers are `Int`/`Nat` (Python ints are unbounded, so no
modular wrap is needed); impure inputs (`datetime.now()`) are passed in as
explicit arguments; result rows (`Dict[str, Any]`) are string-keyed
mappings whose leaf values are either JSON-native (strings, ints) or
non-JSON-native database values (dates, Decimals) carried by their `str()`
rendering, which is exactly what the embedded code observes of them:
`str(row)` in the summary, list length and slicing, and the per-leaf
`default=str` JSON serialization of the persistence layer.
-/

namespace ConvAI

/-! ### String primitives mirroring the Python `str` operations used -/

/-- Prefix test on character lists, the building block for the embedding of
Python substring membership. -/
def isPrefixChars : List Char → List Char → Bool
  | [], _ => true
  | _ :: _, [] => false
  | p :: ps, c :: cs => p == c && isPrefixChars ps cs

/-- Occurrence test of a pattern anywhere inside a character list. -/
def containsChars (pat : List Char) : List Char → Bool
  | [] => isPrefixChars pat []
  | c :: rest => isPrefixChars pat (c :: rest) || containsChars pat rest

/-- Embeds the Python expression `pat in s` on strings. -/
def strContains (s pat : String) : Bool := containsChars pat.data s.data

/-- Embeds Python `s.startswith(pat)`. -/
def pyStartsWith (s pat : String) : Bool := isPrefixChars pat.data s.data

/-- Embeds Python `s.lower()` (the identifiers fed to it here are ASCII). -/
def pyLower (s : String) : String := String.mk (s.data.map Char.toLower)

/-- Embeds Python `s.replace("dim_", "d_")` on the underlying characters:
every occurrence is replaced, scanning left to right, non-overlapping. -/
def replaceDimChars : List Char → List Char
  | 'd' :: 'i' :: 'm' :: '_' :: rest => 'd' :: '_' :: replaceDimChars rest
  | c :: rest => c :: replaceDimChars rest
  | [] => []

/-- String-level wrapper of `replaceDimChars`: Python
`table.replace("dim_", "d_")` from `SemanticLayer._build_joins`. -/
def replace_dim (s : String) : String := String.mk (replaceDimChars s.data)

/-- Splits a character list at every separator character, keeping empty
chunks (the helper under `pySplit`). -/
def splitChars (p : Char → Bool) : List Char → List (List Char)
  | [] => [[]]
  | c :: rest =>
    if p c then [] :: splitChars p rest
    else
      match splitChars p rest with
      | [] => [[c]]
      | h :: t => (c :: h) :: t

/-- Embeds Python `s.split()` restricted to the space character, the only
whitespace occurring in the fact-table tokens this code splits: split at
spaces, then drop the empty chunks. -/
def pySplit (s : String) : List String :=
  ((splitChars (fun c => c == ' ') s.data).map String.mk).filter (fun t => !t.isEmpty)

/-! ### Data model (`src/semantic_layer/models.py`) -/

/-- `Metric` (models.py lines 8-15). -/
structure Metric where
  name : String
  description : String
  sql : String
  table : String
  aggregation : String
  format : Option String

/-- `Dimension` (models.py lines 18-23); `attributes` is an ordered mapping
attribute name → SQL expression, as a Python dict preserves insertion
order. -/
structure Dimension where
  name : String
  table : String
  key : String
  attributes : List (String × String)

/-- `QueryIntent` (models.py lines 26-34). -/
structure QueryIntent where
  metrics : List String
  dimensions : List String
  filters : List String
  group_by : List String
  time_period : Option String
  limit : Option Int
  original_question : String

/-- `SQLQuery` (models.py lines 37-41). -/
structure SQLQuery where
  sql : String
  intent : QueryIntent
  explanation : String

/-- The loaded state of `SemanticLayer` (semantic_layer.py lines 18-24):
the parsed metric and dimension catalogs and the business-term synonym
map, each an insertion-ordered string-keyed mapping. -/
structure SemanticLayer where
  metrics : List (String × Metric)
  dimensions : List (String × Dimension)
  business_terms : List (String × String)

/-- `SemanticLayer.get_metric` (semantic_layer.py lines 57-69): direct
lookup first, then one hop through the business-term synonyms. -/
def get_metric (sl : SemanticLayer) (metric_name : String) : Option Metric :=
  match sl.metrics.lookup metric_name with
  | some m => some m
  | none =>
    match sl.business_terms.lookup metric_name with
    | some actual_name => sl.metrics.lookup actual_name
    | none => none

/-- `SemanticLayer.get_dimension` (semantic_layer.py lines 71-83). -/
def get_dimension (sl : SemanticLayer) (dim_name : String) : Option Dimension :=
  match sl.dimensions.lookup dim_name with
  | some d => some d
  | none =>
    match sl.business_terms.lookup dim_name with
    | some actual_name => sl.dimensions.lookup actual_name
    | none => none

/-! ### Query compiler (`SemanticLayer.intent_to_sql` and helpers) -/

/-- The loop of `SemanticLayer._determine_fact_table` (semantic_layer.py
lines 184-198): scan the requested metric names in list order; an
unresolvable name is skipped; the first resolved metric whose table name
contains "loan" (checked first) or "investment" decides; if the scan
exhausts the list the default transaction fact table is returned. -/
def fact_table_loop (sl : SemanticLayer) : List String → String
  | [] => "fact_transactions ft"
  | metric_name :: rest =>
    match get_metric sl metric_name with
    | some metric =>
      if strContains (pyLower metric.table) "loan" then "fact_loans fl"
      else if strContains (pyLower metric.table) "investment" then "fact_investments fi"
      else fact_table_loop sl rest
    | none => fact_table_loop sl rest

/-- `SemanticLayer._determine_fact_table` (semantic_layer.py lines
184-198). -/
def determine_fact_table (sl : SemanticLayer) (intent : QueryIntent) : String :=
  fact_table_loop sl intent.metrics

/-- One emitted JOIN clause of `_build_joins`, kept structured; the SQL
text is produced by `renderJoin`. -/
structure Join where
  table : String
  aliasName : String
  factAlias : String
  key : String
deriving DecidableEq

/-- Renders a `Join` to the exact f-string of semantic_layer.py lines
213-216 and 222-225. -/
def renderJoin (j : Join) : String :=
  "LEFT JOIN " ++ (j.table ++ (" " ++ (j.aliasName ++ (" ON " ++ (j.factAlias ++ ("." ++
    (j.key ++ (" = " ++ (j.aliasName ++ ("." ++ j.key))))))))))

/-- Fact-alias extraction of `_build_joins` (semantic_layer.py line 206):
`from_table.split()[-1] if " " in from_table else from_table`; the
out-of-range branch of `[-1]` cannot occur on the three fact-table tokens
and falls back to `from_table` here. -/
def fact_alias_of (from_table : String) : String :=
  if from_table.data.contains ' ' then
    match (pySplit from_table).getLast? with
    | some a => a
    | none => from_table
  else from_table

/-- The join record built for a resolved dimension (semantic_layer.py
lines 212-216): alias = `dim.table.replace("dim_", "d_")`. -/
def mkDimJoin (fact_alias : String) (d : Dimension) : Join :=
  { table := d.table, aliasName := replace_dim d.table, factAlias := fact_alias, key := d.key }

/-- One iteration of the dimension loop of `_build_joins` (semantic_layer.py
lines 209-217), threading the pair (emitted joins, joined table set). -/
def dim_join_step (sl : SemanticLayer) (fact_alias : String)
    (st : List Join × List String) (dim_name : String) : List Join × List String :=
  match get_dimension sl dim_name with
  | some d =>
    if st.2.contains d.table then st
    else (st.1 ++ [mkDimJoin fact_alias d], d.table :: st.2)
  | none => st

/-- The dimension loop of `_build_joins` over `group_by + dimensions`,
started from an empty join list and an empty joined-table set. -/
def dim_joins (sl : SemanticLayer) (fact_alias : String) (names : List String) :
    List Join × List String :=
  names.foldl (dim_join_step sl fact_alias) ([], [])

/-- The extra transaction-type join of `_build_joins` (semantic_layer.py
lines 219-225). -/
def ttJoin (fact_alias : String) : Join :=
  { table := "dim_transaction_type", aliasName := "tt", factAlias := fact_alias,
    key := "transaction_type_key" }

/-- `SemanticLayer._build_joins` (semantic_layer.py lines 200-227):
dimension joins in discovery order, de-duplicated by table name, then the
conditional transaction-type join when a requested metric name contains
"deposit" or "withdrawal" and that table is not already joined. -/
def build_joins (sl : SemanticLayer) (intent : QueryIntent) (from_table : String) : List Join :=
  let fact_alias := fact_alias_of from_table
  let dj := dim_joins sl fact_alias (intent.group_by ++ intent.dimensions)
  dj.1 ++
    (if (intent.metrics.any fun m => strContains m "deposit" || strContains m "withdrawal")
        && !(dj.2.contains "dim_transaction_type")
     then [ttJoin fact_alias] else [])

/-- The default attribute pair (attr_name, attr_sql) picked in
`intent_to_sql` (semantic_layer.py lines 122-123 and 151-152): the first
entry of the attribute mapping, or the dimension name itself when the
mapping is empty. -/
def default_attr (dim_name : String) (d : Dimension) : String × String :=
  match d.attributes with
  | [] => (dim_name, dim_name)
  | (k, v) :: _ => (k, v)

/-- SELECT-list assembly of `intent_to_sql` (semantic_layer.py lines
115-130): resolved group-by attributes first, then resolved metric
expressions, unresolved names contributing nothing. -/
def select_parts_of (sl : SemanticLayer) (intent : QueryIntent) : List String :=
  (intent.group_by.filterMap fun dim_name =>
    (get_dimension sl dim_name).map fun d =>
      (default_attr dim_name d).2 ++ (" AS " ++ (default_attr dim_name d).1))
  ++ (intent.metrics.filterMap fun metric_name =>
    (get_metric sl metric_name).map fun m => m.sql ++ (" AS " ++ metric_name))

/-- WHERE-clause assembly of `intent_to_sql` (semantic_layer.py lines
140-144): all filter strings, then the time-period predicate when it is a
truthy (non-`None`, non-empty) string. -/
def where_clauses_of (intent : QueryIntent) : List String :=
  intent.filters ++
    (match intent.time_period with
     | some t => if t.isEmpty then [] else [t]
     | none => [])

/-- GROUP-BY assembly of `intent_to_sql` (semantic_layer.py lines
147-153): the default attribute expression of each resolved group-by
dimension, in intent order. -/
def group_by_parts_of (sl : SemanticLayer) (intent : QueryIntent) : List String :=
  intent.group_by.filterMap fun dim_name =>
    (get_dimension sl dim_name).map fun d => (default_attr dim_name d).2

/-- The LIMIT line of `intent_to_sql` (semantic_layer.py lines 170-171):
`if intent.limit:` is Python truthiness, so `None` and `0` emit nothing
while every other integer (including negatives) is emitted verbatim. -/
def limit_parts : Option Int → List String
  | some n => if n = 0 then [] else ["LIMIT " ++ toString n]
  | none => []

/-- All lines of the generated SQL before the LIMIT line, in the exact
order `intent_to_sql` appends them (semantic_layer.py lines 155-168). -/
def pre_limit_parts (sl : SemanticLayer) (intent : QueryIntent) : List String :=
  let select_parts := select_parts_of sl intent
  let from_table := determine_fact_table sl intent
  let joins := build_joins sl intent from_table
  let where_clauses := where_clauses_of intent
  let group_by_parts := group_by_parts_of sl intent
  ["SELECT",
   "  " ++ (if select_parts.isEmpty then "*" else String.intercalate ",\n  " select_parts),
   "FROM " ++ from_table]
  ++ joins.map renderJoin
  ++ (if where_clauses.isEmpty then [] else ["WHERE " ++ String.intercalate " AND " where_clauses])
  ++ (if group_by_parts.isEmpty then []
      else ["GROUP BY " ++ String.intercalate ", " group_by_parts])

/-- The `sql_parts` list of `intent_to_sql` (semantic_layer.py lines
155-171), joined by newlines to form the final SQL. -/
def sql_parts (sl : SemanticLayer) (intent : QueryIntent) : List String :=
  pre_limit_parts sl intent ++ limit_parts intent.limit

/-- `SemanticLayer._generate_explanation` (semantic_layer.py lines
229-247); each clause is included only when the corresponding field is
truthy, and the empty assembly falls back to "Simple query". -/
def generate_explanation (intent : QueryIntent) : String :=
  let parts :=
    (if intent.metrics.isEmpty then []
     else ["Calculating: " ++ String.intercalate ", " intent.metrics])
    ++ (if intent.group_by.isEmpty then []
        else ["Grouped by: " ++ String.intercalate ", " intent.group_by])
    ++ (if intent.filters.isEmpty then []
        else ["Filters applied: " ++ toString intent.filters.length])
    ++ (match intent.time_period with
        | some t => if t.isEmpty then [] else ["Time period: " ++ t]
        | none => [])
  if parts.isEmpty then "Simple query" else String.intercalate " | " parts

/-- `SemanticLayer.intent_to_sql` (semantic_layer.py lines 109-182): a
total function of the catalog and the intent. -/
def intent_to_sql (sl : SemanticLayer) (intent : QueryIntent) : SQLQuery :=
  { sql := String.intercalate "\n" (sql_parts sl intent),
    intent := intent,
    explanation := generate_explanation intent }

/-! ### Conversation memory (`src/conversation/memory.py`) -/

/-- One leaf value of a result row (`Any` in `Dict[str, Any]`): either a
JSON-native Python `str` or `int`, or a non-JSON-native database value —
a `datetime.date`/`datetime` from DATE columns or a `Decimal` from
NUMERIC columns — carried by its `str()` rendering, which is the only
view of it the embedded code ever takes (`json.dump` with `default=str`
stores exactly that rendering). -/
inductive PyValue where
  | vstr : String → PyValue
  | vint : Int → PyValue
  | vother : String → PyValue
deriving DecidableEq

/-- A result row: a `Dict[str, Any]` in insertion order. -/
structure Row where
  fields : List (String × PyValue)
deriving DecidableEq

/-- The rendering of one leaf inside `str(row)`: strings are quoted,
ints printed, and a non-native leaf stands by its carried printed form. -/
def reprLeaf : PyValue → String
  | PyValue.vstr s => "\x27" ++ (s ++ "\x27")
  | PyValue.vint n => toString n
  | PyValue.vother s => s

/-- Python `str(row)` of a row dict, used by `_summarize_results`. -/
def pyRowRepr (r : Row) : String :=
  "\x7b" ++ (String.intercalate ", "
    (r.fields.map fun kv => "\x27" ++ (kv.1 ++ ("\x27: " ++ reprLeaf kv.2))) ++ "\x7d")

/-- A leaf survives JSON serialization unchanged exactly when it is
JSON-native. -/
def nativeLeaf : PyValue → Bool
  | PyValue.vstr _ => true
  | PyValue.vint _ => true
  | PyValue.vother _ => false

/-- All leaves of the row are JSON-native. -/
def nativeRow (r : Row) : Bool := r.fields.all fun kv => nativeLeaf kv.2

/-- What one serialize-deserialize pass makes of a leaf: `default=str`
turns a non-native leaf into its string rendering, natives are kept. -/
def canonLeaf : PyValue → PyValue
  | PyValue.vother s => PyValue.vstr s
  | v => v

/-- What one serialize-deserialize pass makes of a row. -/
def canonRow (r : Row) : Row :=
  { fields := r.fields.map fun kv => (kv.1, canonLeaf kv.2) }

/-- The intent mapping stored in a turn (`parsed_intent: Dict[str, Any]`),
with the keys the memory code reads through `.get`; `none` stands for the
empty (falsy) dict. -/
structure PIntent where
  metrics : List String
  dimensions : List String
  group_by : List String
  filters : List String
  time_period : Option String
deriving DecidableEq

/-- `ConversationTurn` (memory.py lines 12-22). -/
structure ConversationTurn where
  turn_id : Nat
  timestamp : String
  user_question : String
  parsed_intent : Option PIntent
  sql_query : String
  results_summary : String
  full_response : String
  row_count : Nat
deriving DecidableEq

/-- The `current_context` snapshot rebuilt by `_update_context` (memory.py
lines 92-103); `none` stands for the initial empty dict. -/
structure CurrentContext where
  last_metrics : List String
  last_dimensions : List String
  last_filters : List String
  last_time_period : Option String
  last_sql : String
  last_results : List Row
  last_row_count : Nat
  last_question : String
deriving DecidableEq

/-- All rows retained in the snapshot are JSON-native (vacuous for the
empty snapshot). -/
def nativeContext : Option CurrentContext → Bool
  | none => true
  | some c => c.last_results.all nativeRow

/-- What one serialize-deserialize pass makes of the snapshot: its
retained rows are canonicalized leaf by leaf. -/
def canonContext (c : CurrentContext) : CurrentContext :=
  { c with last_results := c.last_results.map canonRow }

/-- `canonContext` lifted to the possibly-empty snapshot. -/
def canonContextOpt : Option CurrentContext → Option CurrentContext
  | none => none
  | some c => some (canonContext c)

/-- The state of `ConversationMemory` (memory.py lines 31-36); the
persistence file handle is not part of the state, persistence itself being
modelled by `save_history`/`load_history` below. -/
structure ConversationMemory where
  max_turns : Nat
  history : List ConversationTurn
  current_context : Option CurrentContext
  turn_counter : Nat
deriving DecidableEq

/-- The arguments of one `add_turn` call; `timestamp` carries the impure
`datetime.now().isoformat()` of memory.py line 58 as an input. -/
structure TurnInput where
  user_question : String
  parsed_intent : Option PIntent
  sql_query : String
  results : List Row
  response : String
  timestamp : String
deriving DecidableEq

/-- `ConversationMemory._summarize_results` (memory.py lines 82-90). -/
def summarize_results : List Row → String
  | [] => "No results"
  | [r] => pyRowRepr r
  | r :: rest => toString (rest.length + 1) ++ (" rows returned. First: " ++ pyRowRepr r)

/-- The `.get("metrics", [])` read of a stored intent dict. -/
def pi_metrics : Option PIntent → List String
  | some p => p.metrics
  | none => []

/-- The `.get("dimensions", [])` read of a stored intent dict. -/
def pi_dims : Option PIntent → List String
  | some p => p.dimensions
  | none => []

/-- The `.get("group_by", [])` read of a stored intent dict. -/
def pi_group_by : Option PIntent → List String
  | some p => p.group_by
  | none => []

/-- The `.get("filters", [])` read of a stored intent dict. -/
def pi_filters : Option PIntent → List String
  | some p => p.filters
  | none => []

/-- The `.get("time_period")` read of a stored intent dict. -/
def pi_time_period : Option PIntent → Option String
  | some p => p.time_period
  | none => none

/-- `ConversationMemory._update_context` (memory.py lines 92-103): the
snapshot is rebuilt wholesale from the newest turn and its results. -/
def update_context (turn : ConversationTurn) (results : List Row) : CurrentContext :=
  { last_metrics := pi_metrics turn.parsed_intent,
    last_dimensions := pi_group_by turn.parsed_intent,
    last_filters := pi_filters turn.parsed_intent,
    last_time_period := pi_time_period turn.parsed_intent,
    last_sql := turn.sql_query,
    last_results := results.take 10,
    last_row_count := results.length,
    last_question := turn.user_question }

/-- The `ConversationTurn` built by `add_turn` (memory.py lines 56-65)
when the counter before the call is `counter`. -/
def mkTurn (counter : Nat) (inp : TurnInput) : ConversationTurn :=
  { turn_id := counter + 1, timestamp := inp.timestamp, user_question := inp.user_question,
    parsed_intent := inp.parsed_intent, sql_query := inp.sql_query,
    results_summary := summarize_results inp.results, full_response := inp.response,
    row_count := inp.results.length }

/-- Embeds the Python slice `l[-n:]` for a `Nat` bound `n`: for positive
`n` the last `min n (length l)` elements, but for `n = 0` the WHOLE list,
because Python `-0` is `0` and `l[0:]` is `l`. -/
def pySliceLast {α : Type} (n : Nat) (l : List α) : List α :=
  if n = 0 then l else l.drop (l.length - n)

/-- `ConversationMemory.add_turn` (memory.py lines 42-80): increment the
counter, append the new turn, rebuild the context snapshot, and trim the
history with `history[-max_turns:]` when it exceeds `max_turns`. -/
def add_turn (mem : ConversationMemory) (inp : TurnInput) : ConversationMemory :=
  let turn := mkTurn mem.turn_counter inp
  let history1 := mem.history ++ [turn]
  { mem with
    turn_counter := mem.turn_counter + 1,
    history := if history1.length > mem.max_turns then pySliceLast mem.max_turns history1
               else history1,
    current_context := some (update_context turn inp.results) }

/-- The dict returned by `resolve_follow_up` (memory.py lines 165-173 and
the rewrites below it). -/
structure ResolvedIntent where
  metrics : List String
  dimensions : List String
  group_by : List String
  filters : List String
  time_period : Option String
  is_follow_up : Bool
  base_question : String
deriving DecidableEq

/-- The group-by rewrite group of `resolve_follow_up` (memory.py lines
177-185): one `if/elif` chain, first match wins, the winner REPLACES
`group_by`. -/
def apply_group_by_rule (ql : String) (r : ResolvedIntent) : ResolvedIntent :=
  if strContains ql "by month" then { r with group_by := ["month_name"] }
  else if strContains ql "by year" then { r with group_by := ["year"] }
  else if strContains ql "by region" then { r with group_by := ["region"] }
  else if strContains ql "by customer" || strContains ql "by segment" then
    { r with group_by := ["customer_segment"] }
  else r

/-- The time-period rewrite group of `resolve_follow_up` (memory.py lines
188-193). -/
def apply_time_rule (ql : String) (r : ResolvedIntent) : ResolvedIntent :=
  if strContains ql "last year" then
    { r with time_period := some "d_date.year = YEAR(CURRENT_DATE) - 1" }
  else if strContains ql "this year" then
    { r with time_period := some "d_date.year = YEAR(CURRENT_DATE)" }
  else if strContains ql "last month" then
    { r with time_period := some "d_date.month = MONTH(CURRENT_DATE) - 1" }
  else r

/-- The filter-augmentation group of `resolve_follow_up` (memory.py lines
196-199): the winning filter is APPENDED. -/
def apply_filter_rule (ql : String) (r : ResolvedIntent) : ResolvedIntent :=
  if strContains ql "premium" then
    { r with filters := r.filters ++ ["customer_segment = \x27Premium\x27"] }
  else if strContains ql "gold" then
    { r with filters := r.filters ++ ["customer_segment = \x27Gold\x27"] }
  else r

/-- The starting dict of `resolve_follow_up` (memory.py lines 165-173): a
copy of the previous turn's intent plus the follow-up marker and the last
question from the context snapshot. -/
def base_resolved (mem : ConversationMemory) (li : PIntent) : ResolvedIntent :=
  { metrics := li.metrics, dimensions := li.dimensions, group_by := li.group_by,
    filters := li.filters, time_period := li.time_period, is_follow_up := true,
    base_question := (match mem.current_context with
                      | some c => c.last_question
                      | none => "") }

/-- `ConversationMemory.resolve_follow_up` (memory.py lines 153-201):
`none` stands for the empty dict returned when there is no history or the
last stored intent is the empty dict; otherwise the three rule groups are
applied in sequence to the copied previous intent. -/
def resolve_follow_up (mem : ConversationMemory) (question : String) : Option ResolvedIntent :=
  match mem.history.getLast? with
  | none => none
  | some turn =>
    match turn.parsed_intent with
    | none => none
    | some li =>
      let ql := pyLower question
      some (apply_filter_rule ql (apply_time_rule ql (apply_group_by_rule ql
        (base_resolved mem li))))

/-- A fresh `ConversationMemory` (memory.py lines 31-36, no persisted
snapshot present). -/
def emptyMemory (m : Nat) : ConversationMemory :=
  { max_turns := m, history := [], current_context := none, turn_counter := 0 }

/-- A whole session: fold `add_turn` over a list of inputs starting from a
fresh memory with bound `m`. -/
def runTurns (m : Nat) (inputs : List TurnInput) : ConversationMemory :=
  inputs.foldl add_turn (emptyMemory m)

/-- The full sequence of turns a list of inputs creates when the counter
starts at `counter`: the i-th appended turn carries id `counter + i`. -/
def allTurns (counter : Nat) : List TurnInput → List ConversationTurn
  | [] => []
  | inp :: rest => mkTurn counter inp :: allTurns (counter + 1) rest

/-- The last `n` elements of a list (all of it when it is shorter). -/
def lastN {α : Type} (n : Nat) (l : List α) : List α := l.drop (l.length - n)

/-! ### Persistence format (`_save_history` / `_load_history`) -/

/-- The JSON documents exchanged with the persistence file (memory.py
lines 212-246). -/
inductive Json where
  | null : Json
  | str : String → Json
  | num : Int → Json
  | arr : List Json → Json
  | obj : List (String × Json) → Json

/-- Serialization of an optional string field. -/
def encOptStr : Option String → Json
  | some s => Json.str s
  | none => Json.null

/-- Serialization of a string list field. -/
def encStrList (l : List String) : Json := Json.arr (l.map Json.str)

/-- Serialization of a stored intent dict; the empty dict serializes to an
empty object. -/
def encPIntent : Option PIntent → Json
  | none => Json.obj []
  | some p => Json.obj
      [("metrics", encStrList p.metrics), ("dimensions", encStrList p.dimensions),
       ("group_by", encStrList p.group_by), ("filters", encStrList p.filters),
       ("time_period", encOptStr p.time_period)]

/-- Serialization of one row leaf: native strings and ints go through as
JSON strings and numbers; `default=str` (`json.dump`, memory.py line 225)
renders a non-native leaf as the JSON string of its `str()` form. -/
def encLeaf : PyValue → Json
  | PyValue.vstr s => Json.str s
  | PyValue.vint n => Json.num n
  | PyValue.vother s => Json.str s

/-- Serialization of a row: a JSON object holding its leaves in order. -/
def encRow (r : Row) : Json :=
  Json.obj (r.fields.map fun kv => (kv.1, encLeaf kv.2))

/-- `asdict` of a `ConversationTurn` (memory.py line 219): the dataclass
fields in declaration order. -/
def encTurn (t : ConversationTurn) : Json :=
  Json.obj
    [("turn_id", Json.num t.turn_id), ("timestamp", Json.str t.timestamp),
     ("user_question", Json.str t.user_question), ("parsed_intent", encPIntent t.parsed_intent),
     ("sql_query", Json.str t.sql_query), ("results_summary", Json.str t.results_summary),
     ("full_response", Json.str t.full_response), ("row_count", Json.num t.row_count)]

/-- Serialization of the context snapshot; the initial empty dict
serializes to an empty object. -/
def encContext : Option CurrentContext → Json
  | none => Json.obj []
  | some c => Json.obj
      [("last_metrics", encStrList c.last_metrics),
       ("last_dimensions", encStrList c.last_dimensions),
       ("last_filters", encStrList c.last_filters),
       ("last_time_period", encOptStr c.last_time_period),
       ("last_sql", Json.str c.last_sql),
       ("last_results", Json.arr (c.last_results.map encRow)),
       ("last_row_count", Json.num c.last_row_count),
       ("last_question", Json.str c.last_question)]

/-- `ConversationMemory._save_history` (memory.py lines 212-225): the
complete state — retained turns, context snapshot, counter — as one JSON
document, fully replacing any previous contents. -/
def save_history (mem : ConversationMemory) : Json :=
  Json.obj
    [("turns", Json.arr (mem.history.map encTurn)),
     ("context", encContext mem.current_context),
     ("turn_counter", Json.num mem.turn_counter)]

/-- Parse a JSON string node. -/
def decStr : Json → Option String
  | Json.str s => some s
  | _ => none

/-- Parse a JSON number node as a nonnegative count. -/
def decNat : Json → Option Nat
  | Json.num (Int.ofNat n) => some n
  | _ => none

/-- Parse a list of JSON string nodes. -/
def decStrs : List Json → Option (List String)
  | [] => some []
  | j :: rest =>
    match decStr j, decStrs rest with
    | some s, some ss => some (s :: ss)
    | _, _ => none

/-- Parse a JSON array of strings. -/
def decStrList : Json → Option (List String)
  | Json.arr js => decStrs js
  | _ => none

/-- Parse an optional string field. -/
def decOptStr : Json → Option (Option String)
  | Json.null => some none
  | Json.str s => some (some s)
  | _ => none

/-- Parse a stored intent dict in the canonical field order produced by
`encPIntent`. -/
def decPIntent : Json → Option (Option PIntent)
  | Json.obj [] => some none
  | Json.obj [("metrics", m), ("dimensions", d), ("group_by", g), ("filters", f),
      ("time_period", tp)] =>
    match decStrList m, decStrList d, decStrList g, decStrList f, decOptStr tp with
    | some ms, some ds, some gs, some fs, some tps =>
      some (some { metrics := ms, dimensions := ds, group_by := gs, filters := fs,
                   time_period := tps })
    | _, _, _, _, _ => none
  | _ => none

/-- Parse one serialized row leaf: `json.load` yields a Python `str` for
a JSON string and an `int` for a JSON integer — a stored date or Decimal
comes back as a plain string. -/
def decLeaf : Json → Option PyValue
  | Json.str s => some (PyValue.vstr s)
  | Json.num n => some (PyValue.vint n)
  | _ => none

/-- Parse the leaf list of a serialized row. -/
def decFields : List (String × Json) → Option (List (String × PyValue))
  | [] => some []
  | (k, v) :: rest =>
    match decLeaf v, decFields rest with
    | some pv, some pvs => some ((k, pv) :: pvs)
    | _, _ => none

/-- Parse a serialized row. -/
def decRow : Json → Option Row
  | Json.obj kvs =>
    match decFields kvs with
    | some fs => some { fields := fs }
    | none => none
  | _ => none

/-- Parse a list of serialized rows. -/
def decRows : List Json → Option (List Row)
  | [] => some []
  | j :: rest =>
    match decRow j, decRows rest with
    | some r, some rs => some (r :: rs)
    | _, _ => none

/-- Reconstruction `ConversationTurn(**t)` of memory.py line 241, reading
a turn object in the canonical field order produced by `encTurn`. -/
def decTurn : Json → Option ConversationTurn
  | Json.obj [("turn_id", tid), ("timestamp", ts), ("user_question", uq),
      ("parsed_intent", pin), ("sql_query", sq), ("results_summary", rs),
      ("full_response", fr), ("row_count", rc)] =>
    match decNat tid, decStr ts, decStr uq, decPIntent pin,
        decStr sq, decStr rs, decStr fr, decNat rc with
    | some a, some b, some c, some d, some e, some f, some g, some h =>
      some { turn_id := a, timestamp := b, user_question := c, parsed_intent := d,
             sql_query := e, results_summary := f, full_response := g, row_count := h }
    | _, _, _, _, _, _, _, _ => none
  | _ => none

/-- Parse the serialized turn list. -/
def decTurns : List Json → Option (List ConversationTurn)
  | [] => some []
  | j :: rest =>
    match decTurn j, decTurns rest with
    | some t, some ts => some (t :: ts)
    | _, _ => none

/-- Parse a serialized context snapshot in the canonical field order
produced by `encContext`; the empty object is the empty context. -/
def decContext : Json → Option (Option CurrentContext)
  | Json.obj [] => some none
  | Json.obj [("last_metrics", lm), ("last_dimensions", ld), ("last_filters", lf),
      ("last_time_period", ltp), ("last_sql", ls), ("last_results", Json.arr lr),
      ("last_row_count", lrc), ("last_question", lq)] =>
    match decStrList lm, decStrList ld, decStrList lf, decOptStr ltp,
        decStr ls, decRows lr, decNat lrc, decStr lq with
    | some a, some b, some c, some d, some e, some f, some g, some h =>
      some (some { last_metrics := a, last_dimensions := b, last_filters := c,
                   last_time_period := d, last_sql := e, last_results := f,
                   last_row_count := g, last_question := h })
    | _, _, _, _, _, _, _, _ => none
  | _ => none

/-- `ConversationMemory._load_history` (memory.py lines 227-246) applied
to a snapshot document in the canonical format written by `save_history`:
on success history, context and counter are replaced wholesale; any parse
failure takes the source's `except` path and leaves the state unchanged. -/
def load_history (mem : ConversationMemory) (j : Json) : ConversationMemory :=
  match j with
  | Json.obj [("turns", Json.arr ts), ("context", ctx), ("turn_counter", tc)] =>
    match decTurns ts, decContext ctx, decNat tc with
    | some h, some c, some n =>
      { mem with history := h, current_context := c, turn_counter := n }
    | _, _, _ => mem
  | _ => mem

/-! ### Concrete catalogs, intents and memories used as test vectors -/

/-- Loan metric of the sample catalog (config: `total_loan_amount`). -/
def loanMetric : Metric :=
  { name := "total_loan_amount", description := "Total loan amount disbursed",
    sql := "SUM(fl.loan_amount)", table := "fact_loans", aggregation := "sum",
    format := some "currency" }

/-- Transaction-count metric of the sample catalog. -/
def txnMetric : Metric :=
  { name := "total_transactions", description := "Count of transactions",
    sql := "COUNT(*)", table := "fact_transactions", aggregation := "count",
    format := some "number" }

/-- Investment metric of the sample catalog. -/
def invMetric : Metric :=
  { name := "total_investment_value", description := "Total investment value",
    sql := "SUM(fi.investment_value)", table := "fact_investments", aggregation := "sum",
    format := some "currency" }

/-- Month dimension backed by `dim_date`. -/
def monthDim : Dimension :=
  { name := "month_name", table := "dim_date", key := "date_key",
    attributes := [("month_name", "d_date.month_name")] }

/-- Year dimension backed by the same `dim_date` table. -/
def yearDim : Dimension :=
  { name := "year", table := "dim_date", key := "date_key",
    attributes := [("year", "d_date.year")] }

/-- A dimension whose table name contains `dim_` away from the front,
exercising the alias computation. -/
def innerDim : Dimension :=
  { name := "weird_dim", table := "account_dim_x", key := "account_key",
    attributes := [("region", "x.region")] }

/-- Sample catalog with the three fact-table metrics and two `dim_date`
dimensions. -/
def demoLayer : SemanticLayer :=
  { metrics := [("total_loan_amount", loanMetric), ("total_transactions", txnMetric),
                ("total_investment_value", invMetric)],
    dimensions := [("month_name", monthDim), ("year", yearDim)],
    business_terms := [] }

/-- Catalog containing only the oddly named dimension table. -/
def innerDimLayer : SemanticLayer :=
  { metrics := [], dimensions := [("weird_dim", innerDim)], business_terms := [] }

/-- Intent whose first metric resolves to the loan fact table. -/
def loanFirstIntent : QueryIntent :=
  { metrics := ["total_loan_amount", "total_transactions"], dimensions := [], filters := [],
    group_by := [], time_period := none, limit := none,
    original_question := "how much did we lend" }

/-- Intent grouping by two dimensions that share the `dim_date` table. -/
def dateGroupIntent : QueryIntent :=
  { metrics := [], dimensions := [], filters := [], group_by := ["month_name", "year"],
    time_period := none, limit := none, original_question := "by month and year" }

/-- Intent selecting the oddly named dimension. -/
def innerDimIntent : QueryIntent :=
  { metrics := [], dimensions := [], filters := [], group_by := ["weird_dim"],
    time_period := none, limit := none, original_question := "by weird" }

/-- The completely empty intent with a given question. -/
def empty_intent (q : String) : QueryIntent :=
  { metrics := [], dimensions := [], filters := [], group_by := [],
    time_period := none, limit := none, original_question := q }

/-- Empty intent carrying a negative row limit. -/
def negLimitIntent : QueryIntent :=
  { metrics := [], dimensions := [], filters := [], group_by := [],
    time_period := none, limit := some (-1), original_question := "q" }

/-- Empty intent carrying a positive row limit. -/
def posLimitIntent : QueryIntent :=
  { metrics := [], dimensions := [], filters := [], group_by := [],
    time_period := none, limit := some 5, original_question := "q" }

/-- Intent with names that resolve nowhere in `demoLayer`. -/
def danglingIntent : QueryIntent :=
  { metrics := ["nope_metric"], dimensions := [], filters := [], group_by := ["nope_dim"],
    time_period := none, limit := none, original_question := "q" }

/-- A minimal turn input for driving the memory. -/
def sampleInput : TurnInput :=
  { user_question := "q", parsed_intent := none, sql_query := "s", results := [],
    response := "r", timestamp := "t" }

/-- The stored intent of the sample conversation turn. -/
def samplePIntent : PIntent :=
  { metrics := ["total_transactions"], dimensions := [], group_by := ["region"],
    filters := [], time_period := none }

/-- One completed conversation turn. -/
def sampleTurn : ConversationTurn :=
  { turn_id := 1, timestamp := "t", user_question := "show me total transactions",
    parsed_intent := some samplePIntent, sql_query := "SELECT 1",
    results_summary := "No results", full_response := "r", row_count := 0 }

/-- Memory holding the sample turn and no context snapshot yet. -/
def sampleMemory : ConversationMemory :=
  { max_turns := 10, history := [sampleTurn], current_context := none, turn_counter := 1 }

/-- The intent `resolve_follow_up` produces for "show me by month and by
region" on `sampleMemory`. -/
def sampleResolved : ResolvedIntent :=
  { metrics := ["total_transactions"], dimensions := [], group_by := ["month_name"],
    filters := [], time_period := none, is_follow_up := true, base_question := "" }

/-- A context snapshot for the persistence round trip. -/
def sampleContext : CurrentContext :=
  { last_metrics := ["total_transactions"], last_dimensions := ["region"],
    last_filters := [], last_time_period := none, last_sql := "SELECT 1",
    last_results := [{ fields := [("total", PyValue.vint 42)] }], last_row_count := 1,
    last_question := "show me total transactions" }

/-- Memory with one turn, a non-empty context snapshot and counter 1. -/
def persistedMemory : ConversationMemory :=
  { max_turns := 10, history := [sampleTurn], current_context := some sampleContext,
    turn_counter := 1 }

/-- A row holding a DATE column value: a non-JSON-native leaf. -/
def dateRow : Row := { fields := [("day", PyValue.vother "2024-01-01")] }

/-- Context snapshot whose retained rows contain the date leaf. -/
def dateContext : CurrentContext :=
  { last_metrics := ["total_transactions"], last_dimensions := [],
    last_filters := [], last_time_period := none, last_sql := "SELECT 1",
    last_results := [dateRow], last_row_count := 1,
    last_question := "show me total transactions" }

/-- Memory whose context snapshot holds a non-JSON-native row leaf. -/
def dateMemory : ConversationMemory :=
  { max_turns := 10, history := [sampleTurn], current_context := some dateContext,
    turn_counter := 1 }

/-- The intent `resolve_follow_up` produces for "show me by year and by
region" on `sampleMemory`. -/
def sampleResolvedYear : ResolvedIntent :=
  { metrics := ["total_transactions"], dimensions := [], group_by := ["year"],
    filters := [], time_period := none, is_follow_up := true, base_question := "" }

/-- The join `_build_joins` emits for the month dimension from the default
fact table. -/
def monthJoin : Join :=
  { table := "dim_date", aliasName := "d_date", factAlias := "ft", key := "date_key" }

end ConvAI
namespace ConvAI

/-! ### General helper lemmas -/

/-- Boolean list membership agrees with propositional membership. -/
lemma contains_iff_mem (l : List String) (a : String) : l.contains a = true ↔ a ∈ l := by
  simp [List.contains, List.elem_iff]

/-! Head-mismatch facts about the fixed clause prefixes: a generated line
that starts with one keyword cannot start with another. -/

lemma sp_not_where (x : String) : pyStartsWith ("  " ++ x) "WHERE" = false := rfl

lemma sp_not_group (x : String) : pyStartsWith ("  " ++ x) "GROUP BY" = false := rfl

lemma sp_not_limit (x : String) : pyStartsWith ("  " ++ x) "LIMIT" = false := rfl

lemma from_not_where (x : String) : pyStartsWith ("FROM " ++ x) "WHERE" = false := rfl

lemma from_not_group (x : String) : pyStartsWith ("FROM " ++ x) "GROUP BY" = false := rfl

lemma from_not_limit (x : String) : pyStartsWith ("FROM " ++ x) "LIMIT" = false := rfl

lemma lj_not_where (x : String) : pyStartsWith ("LEFT JOIN " ++ x) "WHERE" = false := rfl

lemma lj_not_group (x : String) : pyStartsWith ("LEFT JOIN " ++ x) "GROUP BY" = false := rfl

lemma lj_not_limit (x : String) : pyStartsWith ("LEFT JOIN " ++ x) "LIMIT" = false := rfl

lemma wh_not_limit (x : String) : pyStartsWith ("WHERE " ++ x) "LIMIT" = false := rfl

lemma gb_not_limit (x : String) : pyStartsWith ("GROUP BY " ++ x) "LIMIT" = false := rfl

/-! ### Fact-table selection lemmas -/

/-- An unresolvable metric name is skipped by the fact-table scan. -/
lemma fact_table_loop_skip (sl : SemanticLayer) (name : String) (rest : List String)
    (h : get_metric sl name = none) :
    fact_table_loop sl (name :: rest) = fact_table_loop sl rest := by
  simp [fact_table_loop, h]

/-- When no resolved metric matches either substring the scan returns the
default transaction fact table. -/
lemma fact_table_loop_default (sl : SemanticLayer) :
    ∀ names : List String,
      (∀ name ∈ names, ∀ mt : Metric, get_metric sl name = some mt →
        strContains (pyLower mt.table) "loan" = false ∧
          strContains (pyLower mt.table) "investment" = false) →
      fact_table_loop sl names = "fact_transactions ft" := by
  intro names
  induction names with
  | nil => intro _; rfl
  | cons n t ih =>
    intro h
    cases hg : get_metric sl n with
    | none =>
      rw [fact_table_loop_skip sl n t hg]
      exact ih fun nm hm => h nm (List.mem_cons_of_mem n hm)
    | some mt =>
      obtain ⟨hl, hi⟩ := h n (List.mem_cons_self n t) mt hg
      simp only [fact_table_loop, hg, hl, hi, Bool.false_eq_true, if_false]
      exact ih fun nm hm => h nm (List.mem_cons_of_mem n hm)

/-! ### Join-loop invariants -/

/-- One step of the dimension-join loop preserves "emitted tables are
distinct" and "every emitted table is recorded in the joined set". -/
lemma dim_join_step_preserves (sl : SemanticLayer) (fa : String) (n : String)
    (st : List Join × List String)
    (h1 : (st.1.map fun j => j.table).Nodup) (h2 : ∀ j ∈ st.1, j.table ∈ st.2) :
    ((dim_join_step sl fa st n).1.map fun j => j.table).Nodup ∧
      ∀ j ∈ (dim_join_step sl fa st n).1, j.table ∈ (dim_join_step sl fa st n).2 := by
  cases hg : get_dimension sl n with
  | none => simp only [dim_join_step, hg]; exact ⟨h1, h2⟩
  | some d =>
    cases hc : st.2.contains d.table with
    | true => simp only [dim_join_step, hg, hc, if_true]; exact ⟨h1, h2⟩
    | false =>
      simp only [dim_join_step, hg, hc, Bool.false_eq_true, if_false]
      constructor
      · rw [List.map_append, List.nodup_append]
        refine ⟨h1, List.nodup_singleton _, ?_⟩
        intro a ha hb
        simp only [List.map_cons, List.map_nil, List.mem_singleton, mkDimJoin] at hb
        obtain ⟨j, hj, hjt⟩ := List.mem_map.mp ha
        have hmem : j.table ∈ st.2 := h2 j hj
        rw [hjt, hb] at hmem
        have hcontains : st.2.contains d.table = true := (contains_iff_mem st.2 d.table).mpr hmem
        rw [hc] at hcontains
        exact Bool.false_ne_true hcontains
      · intro j hj
        rcases List.mem_append.mp hj with hj1 | hj2
        · exact List.mem_cons_of_mem _ (h2 j hj1)
        · simp only [List.mem_singleton] at hj2
          subst hj2
          simp [mkDimJoin]

/-- The invariants of `dim_join_step_preserves` hold of the whole fold. -/
lemma dim_joins_fold_inv (sl : SemanticLayer) (fa : String) :
    ∀ (names : List String) (st : List Join × List String),
      (st.1.map fun j => j.table).Nodup → (∀ j ∈ st.1, j.table ∈ st.2) →
      ((names.foldl (dim_join_step sl fa) st).1.map fun j => j.table).Nodup ∧
        ∀ j ∈ (names.foldl (dim_join_step sl fa) st).1,
          j.table ∈ (names.foldl (dim_join_step sl fa) st).2 := by
  intro names
  induction names with
  | nil => intro st h1 h2; exact ⟨h1, h2⟩
  | cons n t ih =>
    intro st h1 h2
    rw [List.foldl_cons]
    obtain ⟨g1, g2⟩ := dim_join_step_preserves sl fa n st h1 h2
    exact ih (dim_join_step sl fa st n) g1 g2

/-- Every join the dimension loop emits comes from some resolved name of
the scanned list, as the record `mkDimJoin` builds for its dimension. -/
lemma dim_joins_provenance (sl : SemanticLayer) (fa : String) :
    ∀ (names : List String) (st : List Join × List String) (j : Join),
      j ∈ (names.foldl (dim_join_step sl fa) st).1 →
      j ∈ st.1 ∨ ∃ name ∈ names, ∃ d : Dimension,
        get_dimension sl name = some d ∧ j = mkDimJoin fa d := by
  intro names
  induction names with
  | nil => intro st j hj; exact Or.inl hj
  | cons n t ih =>
    intro st j hj
    rw [List.foldl_cons] at hj
    rcases ih (dim_join_step sl fa st n) j hj with hin | ⟨name, hname, d, hd, hj2⟩
    · cases hg : get_dimension sl n with
      | none => simp only [dim_join_step, hg] at hin; exact Or.inl hin
      | some d =>
        simp only [dim_join_step, hg] at hin
        by_cases hc : st.2.contains d.table = true
        · rw [if_pos hc] at hin
          exact Or.inl hin
        · rw [if_neg hc] at hin
          rcases List.mem_append.mp hin with hA | hB
          · exact Or.inl hA
          · simp only [List.mem_singleton] at hB
            exact Or.inr ⟨n, List.mem_cons_self n t, d, hg, hB⟩
    · exact Or.inr ⟨name, List.mem_cons_of_mem n hname, d, hd, hj2⟩

/-- The fold invariants restated on `dim_joins` itself. -/
lemma dim_joins_inv (sl : SemanticLayer) (fa : String) (names : List String) :
    ((dim_joins sl fa names).1.map fun j => j.table).Nodup ∧
      ∀ j ∈ (dim_joins sl fa names).1, j.table ∈ (dim_joins sl fa names).2 := by
  simp only [dim_joins]
  exact dim_joins_fold_inv sl fa names ([], []) (by simp) (by simp)

/-- Appending the conditional transaction-type join keeps the emitted
tables distinct: its guard checks the joined-table set. -/
lemma nodup_append_tt (djs : List Join) (joined : List String) (b : Bool) (fa : String)
    (h1 : (djs.map fun j => j.table).Nodup) (h2 : ∀ j ∈ djs, j.table ∈ joined) :
    ((djs ++ (if b && !(joined.contains "dim_transaction_type") then [ttJoin fa]
        else [])).map fun j => j.table).Nodup := by
  cases hb : (b && !(joined.contains "dim_transaction_type")) with
  | false => simpa [hb] using h1
  | true =>
    simp only [hb, if_true]
    rw [List.map_append, List.nodup_append]
    refine ⟨h1, by simp, ?_⟩
    intro a ha hmem2
    simp only [List.map_cons, List.map_nil, List.mem_singleton, ttJoin] at hmem2
    obtain ⟨j, hj, hjt⟩ := List.mem_map.mp ha
    have hjoined : j.table ∈ joined := h2 j hj
    rw [hjt, hmem2] at hjoined
    have hcontains : joined.contains "dim_transaction_type" = true :=
      (contains_iff_mem _ _).mpr hjoined
    rw [Bool.and_eq_true] at hb
    rw [hcontains] at hb
    simp at hb

/-- A fold of the dimension loop over names that all fail to resolve
leaves the state unchanged. -/
lemma fold_dim_none (sl : SemanticLayer) (fa : String) :
    ∀ (names : List String) (st : List Join × List String),
      (∀ name ∈ names, get_dimension sl name = none) →
      names.foldl (dim_join_step sl fa) st = st := by
  intro names
  induction names with
  | nil => intro st _; rfl
  | cons n t ih =>
    intro st h
    rw [List.foldl_cons]
    have hn : get_dimension sl n = none := h n (List.mem_cons_self n t)
    have hstep : dim_join_step sl fa st n = st := by simp [dim_join_step, hn]
    rw [hstep]
    exact ih st fun nm hm => h nm (List.mem_cons_of_mem n hm)

/-! ### Conversation-memory fold lemmas -/

/-- Folding `add_turn` adds one to the counter per processed input. -/
lemma foldl_add_turn_counter (inputs : List TurnInput) :
    ∀ s : ConversationMemory,
      (inputs.foldl add_turn s).turn_counter = s.turn_counter + inputs.length := by
  induction inputs with
  | nil => intro s; simp
  | cons i t ih =>
    intro s
    rw [List.foldl_cons, ih]
    simp [add_turn]
    omega

/-- Folding `add_turn` never changes the configured bound. -/
lemma foldl_add_turn_max (inputs : List TurnInput) :
    ∀ s : ConversationMemory, (inputs.foldl add_turn s).max_turns = s.max_turns := by
  induction inputs with
  | nil => intro s; simp
  | cons i t ih =>
    intro s
    rw [List.foldl_cons, ih]
    rfl

/-- Appending one input extends the full turn sequence by one turn whose
id continues the numbering. -/
lemma allTurns_append (x : TurnInput) (l : List TurnInput) :
    ∀ c : Nat, allTurns c (l ++ [x]) = allTurns c l ++ [mkTurn (c + l.length) x] := by
  induction l with
  | nil => intro c; simp [allTurns]
  | cons a t ih =>
    intro c
    simp only [List.cons_append, allTurns, List.length_cons, List.append_eq]
    rw [ih (c + 1)]
    have harith : c + 1 + t.length = c + (t.length + 1) := by omega
    rw [harith]

/-- The full turn sequence has one turn per input. -/
lemma allTurns_length (c : Nat) (l : List TurnInput) : (allTurns c l).length = l.length := by
  induction l generalizing c with
  | nil => rfl
  | cons a t ih => simp [allTurns, ih]

/-- `lastN` of a list no longer than the bound is the whole list. -/
lemma lastN_of_le {α : Type} (n : Nat) (l : List α) (h : l.length ≤ n) : lastN n l = l := by
  simp [lastN, Nat.sub_eq_zero_of_le h]

/-- For a positive bound `m` the session history is always the last `m`
entries of the full turn sequence. -/
lemma runTurns_history (m : Nat) (hm : 1 ≤ m) :
    ∀ inputs : List TurnInput, (runTurns m inputs).history = lastN m (allTurns 0 inputs) := by
  intro inputs
  induction inputs using List.reverseRecOn with
  | nil => simp [runTurns, emptyMemory, lastN, allTurns]
  | append_singleton l x ih =>
    have hstep : runTurns m (l ++ [x]) = add_turn (runTurns m l) x := by
      simp [runTurns, List.foldl_append]
    have hc : (runTurns m l).turn_counter = l.length := by
      simp [runTurns, foldl_add_turn_counter, emptyMemory]
    have hmx : (runTurns m l).max_turns = m := by
      simp [runTurns, foldl_add_turn_max, emptyMemory]
    rw [hstep]
    rw [allTurns_append x l 0]
    simp only [Nat.zero_add]
    set T := allTurns 0 l with hT
    set t := mkTurn l.length x with ht
    have hTlen : T.length = l.length := allTurns_length 0 l
    show (add_turn (runTurns m l) x).history = lastN m (T ++ [t])
    have hhist : (add_turn (runTurns m l) x).history =
        (if ((runTurns m l).history ++ [t]).length > m then
          pySliceLast m ((runTurns m l).history ++ [t])
        else (runTurns m l).history ++ [t]) := by
      simp [add_turn, hc, hmx, ht]
    rw [hhist, ih]
    by_cases hLm : T.length < m
    · have h1 : lastN m T = T := lastN_of_le m T (Nat.le_of_lt hLm)
      rw [h1]
      have h2 : ¬ (T ++ [t]).length > m := by
        simp [List.length_append]
        omega
      rw [if_neg h2]
      have h3 : (T ++ [t]).length ≤ m := by simp [List.length_append]; omega
      rw [lastN_of_le m (T ++ [t]) h3]
    · push_neg at hLm
      have hlen1 : (lastN m T).length = m := by
        simp [lastN, List.length_drop]
        omega
      have h2 : (lastN m T ++ [t]).length > m := by
        simp [List.length_append, hlen1]
      rw [if_pos h2]
      have hm0 : m ≠ 0 := by omega
      rw [pySliceLast, if_neg hm0]
      have h4 : (lastN m T ++ [t]).length - m = 1 := by
        simp [List.length_append, hlen1]
      rw [h4]
      have h5 : (1 : Nat) ≤ (lastN m T).length := by omega
      rw [List.drop_append_of_le_length h5]
      rw [lastN, List.drop_drop]
      have h6 : lastN m (T ++ [t]) = T.drop (T.length + 1 - m) ++ [t] := by
        rw [lastN, List.length_append]
        simp only [List.length_singleton]
        exact List.drop_append_of_le_length (by omega)
      rw [h6]
      congr 2
      omega

/-! ### Persistence round-trip lemmas -/

/-- Decoding inverts encoding for string lists (element level). -/
lemma decStrs_enc (l : List String) : decStrs (l.map Json.str) = some l := by
  induction l with
  | nil => rfl
  | cons a t ih => simp [decStrs, decStr, ih]

/-- Decoding inverts encoding for string lists. -/
lemma decStrList_enc (l : List String) : decStrList (encStrList l) = some l := by
  simp [decStrList, encStrList, decStrs_enc]

/-- Decoding inverts encoding for optional strings. -/
lemma decOptStr_enc (o : Option String) : decOptStr (encOptStr o) = some o := by
  cases o <;> rfl

/-- Decoding inverts encoding for stored intent dicts. -/
lemma decPIntent_enc (p : Option PIntent) : decPIntent (encPIntent p) = some p := by
  cases p with
  | none => rfl
  | some q =>
    cases q
    simp [encPIntent, decPIntent, decStrList_enc, decOptStr_enc]

/-- One serialize-deserialize pass canonicalizes a leaf: natives are
kept, a non-native comes back as the string of its rendering. -/
lemma decLeaf_enc (v : PyValue) : decLeaf (encLeaf v) = some (canonLeaf v) := by
  cases v <;> rfl

/-- One serialize-deserialize pass canonicalizes a leaf list. -/
lemma decFields_enc (l : List (String × PyValue)) :
    decFields (l.map fun kv => (kv.1, encLeaf kv.2)) =
      some (l.map fun kv => (kv.1, canonLeaf kv.2)) := by
  induction l with
  | nil => rfl
  | cons a t ih =>
    obtain ⟨k, v⟩ := a
    simp [decFields, decLeaf_enc, ih]

/-- One serialize-deserialize pass canonicalizes a row. -/
lemma decRow_enc (r : Row) : decRow (encRow r) = some (canonRow r) := by
  cases r
  simp [encRow, decRow, decFields_enc, canonRow]

/-- One serialize-deserialize pass canonicalizes a row list. -/
lemma decRows_enc (l : List Row) : decRows (l.map encRow) = some (l.map canonRow) := by
  induction l with
  | nil => rfl
  | cons a t ih => simp [decRows, decRow_enc, ih]

/-- A JSON-native leaf is untouched by canonicalization. -/
lemma canonLeaf_native (v : PyValue) (h : nativeLeaf v = true) : canonLeaf v = v := by
  cases v <;> simp_all [nativeLeaf, canonLeaf]

/-- A row of JSON-native leaves is untouched by canonicalization. -/
lemma canonRow_native (r : Row) (h : nativeRow r = true) : canonRow r = r := by
  obtain ⟨fields⟩ := r
  simp only [nativeRow, List.all_eq_true] at h
  simp only [canonRow, Row.mk.injEq]
  induction fields with
  | nil => rfl
  | cons a t ih =>
    obtain ⟨k, v⟩ := a
    rw [List.map_cons]
    rw [canonLeaf_native v (h (k, v) (List.mem_cons_self _ _))]
    rw [ih fun kv hkv => h kv (List.mem_cons_of_mem _ hkv)]

/-- Canonicalization is the identity on a list of JSON-native rows. -/
lemma map_canonRow_id (l : List Row) (h : ∀ r ∈ l, nativeRow r = true) :
    l.map canonRow = l := by
  induction l with
  | nil => rfl
  | cons a t ih =>
    rw [List.map_cons, canonRow_native a (h a (List.mem_cons_self _ _)),
      ih fun r hr => h r (List.mem_cons_of_mem _ hr)]

/-- A snapshot whose rows are all JSON-native is untouched by
canonicalization. -/
lemma canonContextOpt_native (c : Option CurrentContext) (h : nativeContext c = true) :
    canonContextOpt c = c := by
  cases c with
  | none => rfl
  | some cc =>
    simp only [nativeContext, List.all_eq_true] at h
    simp only [canonContextOpt, canonContext, Option.some.injEq]
    rw [map_canonRow_id cc.last_results h]

/-- Decoding inverts encoding for conversation turns. -/
lemma decTurn_enc (t : ConversationTurn) : decTurn (encTurn t) = some t := by
  cases t
  simp [encTurn, decTurn, decPIntent_enc, decNat, decStr]

/-- Decoding inverts encoding for turn lists. -/
lemma decTurns_enc (l : List ConversationTurn) : decTurns (l.map encTurn) = some l := by
  induction l with
  | nil => rfl
  | cons a t ih => simp [decTurns, decTurn_enc, ih]

/-- One serialize-deserialize pass canonicalizes the context snapshot:
every field is reproduced, the retained rows leaf by leaf through
`canonLeaf`. -/
lemma decContext_enc (c : Option CurrentContext) :
    decContext (encContext c) = some (canonContextOpt c) := by
  cases c with
  | none => rfl
  | some cc =>
    cases cc
    simp [encContext, decContext, decStrList_enc, decOptStr_enc, decRows_enc, decStr,
      decNat, canonContextOpt, canonContext]

/-! ### Follow-up rule lemmas -/

/-- The time-period rule group never touches `group_by`. -/
lemma apply_time_rule_group_by (ql : String) (r : ResolvedIntent) :
    (apply_time_rule ql r).group_by = r.group_by := by
  rw [apply_time_rule]
  split_ifs <;> rfl

/-- The filter rule group never touches `group_by`. -/
lemma apply_filter_rule_group_by (ql : String) (r : ResolvedIntent) :
    (apply_filter_rule ql r).group_by = r.group_by := by
  rw [apply_filter_rule]
  split_ifs <;> rfl

/-- The group-by rule group yields one of its four fixed outputs or leaves
the grouping unchanged. -/
lemma apply_group_by_rule_cases (ql : String) (r : ResolvedIntent) :
    (apply_group_by_rule ql r).group_by = ["month_name"] ∨
    (apply_group_by_rule ql r).group_by = ["year"] ∨
    (apply_group_by_rule ql r).group_by = ["region"] ∨
    (apply_group_by_rule ql r).group_by = ["customer_segment"] ∨
    (apply_group_by_rule ql r).group_by = r.group_by := by
  rw [apply_group_by_rule]
  split_ifs <;> simp

/-- "by month" beats every later rule of the group-by chain. -/
lemma apply_group_by_rule_month (ql : String) (r : ResolvedIntent)
    (h : strContains ql "by month" = true) :
    (apply_group_by_rule ql r).group_by = ["month_name"] := by
  simp [apply_group_by_rule, h]

/-- "by year" wins exactly when "by month" is absent. -/
lemma apply_group_by_rule_year (ql : String) (r : ResolvedIntent)
    (h1 : strContains ql "by month" = false) (h2 : strContains ql "by year" = true) :
    (apply_group_by_rule ql r).group_by = ["year"] := by
  simp [apply_group_by_rule, h1, h2]

/-- "by region" wins exactly when "by month" and "by year" are absent. -/
lemma apply_group_by_rule_region (ql : String) (r : ResolvedIntent)
    (h1 : strContains ql "by month" = false) (h2 : strContains ql "by year" = false)
    (h3 : strContains ql "by region" = true) :
    (apply_group_by_rule ql r).group_by = ["region"] := by
  simp [apply_group_by_rule, h1, h2, h3]

/-- "by customer"/"by segment" wins only when the three earlier phrases
are absent. -/
lemma apply_group_by_rule_customer (ql : String) (r : ResolvedIntent)
    (h1 : strContains ql "by month" = false) (h2 : strContains ql "by year" = false)
    (h3 : strContains ql "by region" = false)
    (h4 : strContains ql "by customer" = true ∨ strContains ql "by segment" = true) :
    (apply_group_by_rule ql r).group_by = ["customer_segment"] := by
  rcases h4 with h | h <;> simp [apply_group_by_rule, h1, h2, h3, h]

/-- With no rule phrase present the copied grouping is left unchanged. -/
lemma apply_group_by_rule_none (ql : String) (r : ResolvedIntent)
    (h1 : strContains ql "by month" = false) (h2 : strContains ql "by year" = false)
    (h3 : strContains ql "by region" = false)
    (h4 : strContains ql "by customer" = false)
    (h5 : strContains ql "by segment" = false) :
    (apply_group_by_rule ql r).group_by = r.group_by := by
  simp [apply_group_by_rule, h1, h2, h3, h4, h5]

/-! ### Claim theorems -/

/-- C1: `intent_to_sql` is a deterministic function of the catalog and the
intent — two compilations of the same intent against the same catalog
yield the same SQL text and the same explanation. In this embedding the
compiler is a pure total function (the Python method reads no state
outside its arguments and calls nothing impure), so equal inputs give
syntactically equal outputs. -/
theorem intent_to_sql_deterministic (sl : SemanticLayer) (intent : QueryIntent)
    (q1 q2 : SQLQuery) (h1 : intent_to_sql sl intent = q1)
    (h2 : intent_to_sql sl intent = q2) :
    q1.sql = q2.sql ∧ q1.explanation = q2.explanation := by
  subst h1
  subst h2
  exact ⟨rfl, rfl⟩

/-- Witness for C1 at a concrete catalog and intent. -/
theorem intent_to_sql_deterministic_witness :
    (intent_to_sql demoLayer loanFirstIntent).sql =
      (intent_to_sql demoLayer loanFirstIntent).sql ∧
    (intent_to_sql demoLayer loanFirstIntent).explanation =
      (intent_to_sql demoLayer loanFirstIntent).explanation :=
  intent_to_sql_deterministic demoLayer loanFirstIntent _ _ rfl rfl

/-- C3: every generated join list mentions each dimension table at most
once, whatever the catalog, the intent and the fact table; and the intent
grouping by `month_name` and `year`, both backed by `dim_date`, produces
exactly one join, to `dim_date`. -/
theorem joins_deduplicated :
    (∀ (sl : SemanticLayer) (intent : QueryIntent) (from_table : String),
        ((build_joins sl intent from_table).map fun j => j.table).Nodup) ∧
    ((build_joins demoLayer dateGroupIntent
        (determine_fact_table demoLayer dateGroupIntent)).map fun j => j.table) =
      ["dim_date"] := by
  constructor
  · intro sl intent ft
    obtain ⟨g1, g2⟩ := dim_joins_inv sl (fact_alias_of ft) (intent.group_by ++ intent.dimensions)
    exact nodup_append_tt (dim_joins sl (fact_alias_of ft)
        (intent.group_by ++ intent.dimensions)).1
      (dim_joins sl (fact_alias_of ft) (intent.group_by ++ intent.dimensions)).2
      (intent.metrics.any fun m => strContains m "deposit" || strContains m "withdrawal")
      (fact_alias_of ft) g1 g2
  · rfl

/-- C6 (amended): every join the dimension loop emits belongs to a
resolved dimension of the scanned names, and its alias is the dimension's
table name with every occurrence of `dim_` replaced by `d_` — Python
`str.replace` rewrites all occurrences, not only a leading prefix. -/
theorem join_alias_global_replace (sl : SemanticLayer) (intent : QueryIntent)
    (from_table : String) (j : Join)
    (hj : j ∈ (dim_joins sl (fact_alias_of from_table)
        (intent.group_by ++ intent.dimensions)).1) :
    ∃ name ∈ intent.group_by ++ intent.dimensions, ∃ d : Dimension,
      get_dimension sl name = some d ∧ j.table = d.table ∧
        j.aliasName = replace_dim d.table := by
  rw [dim_joins] at hj
  rcases dim_joins_provenance sl (fact_alias_of from_table)
      (intent.group_by ++ intent.dimensions) ([], []) j hj with h | ⟨name, hname, d, hd, hj2⟩
  · simp at h
  · subst hj2
    exact ⟨name, hname, d, hd, rfl, rfl⟩

/-- Witness for C6 at the sample `dim_date` catalog. -/
theorem join_alias_global_replace_witness :
    ∃ name ∈ dateGroupIntent.group_by ++ dateGroupIntent.dimensions, ∃ d : Dimension,
      get_dimension demoLayer name = some d ∧ monthJoin.table = d.table ∧
        monthJoin.aliasName = replace_dim d.table :=
  join_alias_global_replace demoLayer dateGroupIntent "fact_transactions ft" monthJoin
    (by
      rw [show (dim_joins demoLayer (fact_alias_of "fact_transactions ft")
          (dateGroupIntent.group_by ++ dateGroupIntent.dimensions)).1 = [monthJoin] from rfl]
      exact List.mem_singleton.mpr rfl)

/-- C6 counterexample to the claim as stated: the table `account_dim_x`
does not start with `dim_`, yet its join alias is `account_d_x`, not the
unchanged table name — `replace` rewrites the inner occurrence too. -/
theorem alias_inner_dim_counterexample :
    ((build_joins innerDimLayer innerDimIntent "fact_transactions ft").map
        fun j => j.aliasName) = ["account_d_x"] ∧
    pyStartsWith "account_dim_x" "dim_" = false ∧
    "account_d_x" ≠ "account_dim_x" :=
  ⟨rfl, rfl, by decide⟩

/-- C4: an intent whose names all fail to resolve, with no filters, time
period or limit, compiles to `SELECT * FROM fact_transactions ft` with no
WHERE, GROUP BY or LIMIT line (only the conditional transaction-type join
may follow); and the fully empty intent compiles to exactly that SQL text.
Compilation is a total function, so no input raises. -/
theorem empty_intent_fallback (sl : SemanticLayer) (intent : QueryIntent) (q : String)
    (hm : ∀ name ∈ intent.metrics, get_metric sl name = none)
    (hg : ∀ name ∈ intent.group_by, get_dimension sl name = none)
    (hd : ∀ name ∈ intent.dimensions, get_dimension sl name = none)
    (hf : intent.filters = []) (ht : intent.time_period = none)
    (hl : intent.limit = none) :
    ((sql_parts sl intent).take 3 = ["SELECT", "  *", "FROM fact_transactions ft"] ∧
      ∀ p ∈ sql_parts sl intent,
        pyStartsWith p "WHERE" = false ∧ pyStartsWith p "GROUP BY" = false ∧
          pyStartsWith p "LIMIT" = false) ∧
    (intent_to_sql sl (empty_intent q)).sql = "SELECT\n  *\nFROM fact_transactions ft" := by
  have hall : ∀ name ∈ intent.group_by ++ intent.dimensions, get_dimension sl name = none := by
    intro name hname
    rcases List.mem_append.mp hname with h | h
    · exact hg name h
    · exact hd name h
  have hsel : select_parts_of sl intent = [] := by
    rw [select_parts_of]
    rw [List.filterMap_eq_nil_iff.mpr fun a ha => by rw [hg a ha]; rfl]
    rw [List.filterMap_eq_nil_iff.mpr fun a ha => by rw [hm a ha]; rfl]
    rfl
  have hgbp : group_by_parts_of sl intent = [] := by
    rw [group_by_parts_of]
    exact List.filterMap_eq_nil_iff.mpr fun a ha => by rw [hg a ha]; rfl
  have hwc : where_clauses_of intent = [] := by
    rw [where_clauses_of, hf, ht]
    rfl
  have hft : determine_fact_table sl intent = "fact_transactions ft" :=
    fact_table_loop_default sl intent.metrics fun name hname mt hmt => by
      rw [hm name hname] at hmt
      cases hmt
  have hbj : build_joins sl intent "fact_transactions ft" =
      (if (intent.metrics.any fun m => strContains m "deposit" || strContains m "withdrawal")
       then [ttJoin (fact_alias_of "fact_transactions ft")] else []) := by
    simp only [build_joins, dim_joins]
    simp only [fold_dim_none sl (fact_alias_of "fact_transactions ft")
      (intent.group_by ++ intent.dimensions) ([], []) hall]
    simp
  have hparts : sql_parts sl intent =
      ["SELECT", "  *", "FROM fact_transactions ft"]
        ++ (if (intent.metrics.any fun m =>
              strContains m "deposit" || strContains m "withdrawal")
            then [renderJoin (ttJoin (fact_alias_of "fact_transactions ft"))] else []) := by
    rw [sql_parts, hl]
    simp only [limit_parts, List.append_nil, pre_limit_parts]
    rw [hsel, hwc, hgbp, hft, hbj]
    cases hany : (intent.metrics.any fun m =>
        strContains m "deposit" || strContains m "withdrawal")
    · rfl
    · rfl
  constructor
  · constructor
    · rw [hparts]
      rfl
    · intro p hp
      rw [hparts] at hp
      rcases List.mem_append.mp hp with h3 | h3
      · simp only [List.mem_cons, List.not_mem_nil, or_false] at h3
        rcases h3 with h | h | h
        · subst h; exact ⟨rfl, rfl, rfl⟩
        · subst h; exact ⟨rfl, rfl, rfl⟩
        · subst h; exact ⟨rfl, rfl, rfl⟩
      · have hpj : p = renderJoin (ttJoin (fact_alias_of "fact_transactions ft")) := by
          cases hany : (intent.metrics.any fun m =>
              strContains m "deposit" || strContains m "withdrawal") with
          | false => rw [hany] at h3; simp at h3
          | true =>
            rw [hany] at h3
            simp only [if_true, List.mem_singleton] at h3
            exact h3
        subst hpj
        rw [renderJoin]
        exact ⟨lj_not_where _, lj_not_group _, lj_not_limit _⟩
  · rfl

/-- Witness for C4 at a catalog and an intent whose names do not
resolve. -/
theorem empty_intent_fallback_witness :
    (sql_parts demoLayer danglingIntent).take 3 =
      ["SELECT", "  *", "FROM fact_transactions ft"] ∧
    (intent_to_sql demoLayer (empty_intent "hello")).sql =
      "SELECT\n  *\nFROM fact_transactions ft" := by
  have h := empty_intent_fallback demoLayer danglingIntent "hello"
    (by
      intro name hname
      have heq : name = "nope_metric" := by simpa [danglingIntent] using hname
      subst heq
      rfl)
    (by
      intro name hname
      have heq : name = "nope_dim" := by simpa [danglingIntent] using hname
      subst heq
      rfl)
    (by
      intro name hname
      simp [danglingIntent] at hname)
    rfl rfl rfl
  exact ⟨h.1.1, h.2⟩

/-- C5 (amended): the compiled SQL ends with a LIMIT line carrying the
intent's limit value if and only if the intent carries a present, NONZERO
limit — Python truthiness suppresses `None` and `0` but emits negative
limits verbatim. -/
theorem limit_clause_nonzero (sl : SemanticLayer) (intent : QueryIntent) :
    (∀ n : Int, intent.limit = some n → n ≠ 0 →
      (sql_parts sl intent).getLast? = some ("LIMIT " ++ toString n)) ∧
    ((intent.limit = none ∨ intent.limit = some 0) →
      ∀ p ∈ sql_parts sl intent, pyStartsWith p "LIMIT" = false) := by
  constructor
  · intro n hn hnz
    rw [sql_parts, hn]
    simp only [limit_parts, if_neg hnz]
    exact List.getLast?_concat _
  · intro hl p hp
    have hlp : limit_parts intent.limit = [] := by
      rcases hl with h | h <;> rw [h] <;> simp [limit_parts]
    rw [sql_parts, hlp, List.append_nil] at hp
    simp only [pre_limit_parts] at hp
    rcases List.mem_append.mp hp with hp1 | hGB
    · rcases List.mem_append.mp hp1 with hp2 | hW
      · rcases List.mem_append.mp hp2 with hHead | hJoin
        · simp only [List.mem_cons, List.not_mem_nil, or_false] at hHead
          rcases hHead with h | h | h
          · subst h; rfl
          · subst h; exact sp_not_limit _
          · subst h; exact from_not_limit _
        · obtain ⟨j, hj, hjp⟩ := List.mem_map.mp hJoin
          subst hjp
          rw [renderJoin]
          exact lj_not_limit _
      · cases hw : (where_clauses_of intent).isEmpty with
        | true => simp [hw] at hW
        | false =>
          simp only [hw, Bool.false_eq_true, if_false, List.mem_singleton] at hW
          subst hW
          exact wh_not_limit _
    · cases hw : (group_by_parts_of sl intent).isEmpty with
      | true => simp [hw] at hGB
      | false =>
        simp only [hw, Bool.false_eq_true, if_false, List.mem_singleton] at hGB
        subst hGB
        exact gb_not_limit _

/-- Witness for C5: a positive limit lands verbatim in the last line, and
the limit-free intent has no line starting with LIMIT. -/
theorem limit_clause_nonzero_witness :
    (sql_parts demoLayer posLimitIntent).getLast? = some ("LIMIT " ++ toString (5 : Int)) ∧
    pyStartsWith "SELECT" "LIMIT" = false := by
  refine ⟨(limit_clause_nonzero demoLayer posLimitIntent).1 5 rfl (by decide), ?_⟩
  refine (limit_clause_nonzero demoLayer (empty_intent "q")).2 (Or.inl rfl) "SELECT" ?_
  rw [show sql_parts demoLayer (empty_intent "q") =
    ["SELECT", "  *", "FROM fact_transactions ft"] from rfl]
  exact List.mem_cons_self _ _

/-- C5 counterexample to the claim as stated: the non-positive limit `-1`
still produces a LIMIT clause, so "LIMIT iff positive limit" fails in the
only-if direction. -/
theorem limit_negative_emitted :
    (intent_to_sql demoLayer negLimitIntent).sql =
      "SELECT\n  *\nFROM fact_transactions ft\nLIMIT -1" ∧
    ¬ (0 : Int) < -1 :=
  ⟨rfl, by decide⟩

/-- C7: for a POSITIVE bound `m`, appending `m + k` turns (`k ≥ 1`) from
an empty history leaves exactly the last `m` appended turns in append
order — but for `m = 0` the slice `history[-0:]` keeps everything, so one
append already leaves one retained turn instead of zero. -/
theorem history_fifo_bound :
    (∀ (m k : Nat) (inputs : List TurnInput), 1 ≤ m → 1 ≤ k → inputs.length = m + k →
      (runTurns m inputs).history = (allTurns 0 inputs).drop k ∧
        (runTurns m inputs).history.length = m) ∧
    (runTurns 0 [sampleInput]).history.length = 1 := by
  constructor
  · intro m k inputs hm hk hlen
    have h1 := runTurns_history m hm inputs
    have h2 : (allTurns 0 inputs).length = m + k := by rw [allTurns_length, hlen]
    have h3 : lastN m (allTurns 0 inputs) = (allTurns 0 inputs).drop k := by
      rw [lastN, h2]
      congr 1
      omega
    refine ⟨by rw [h1, h3], ?_⟩
    rw [h1, h3, List.length_drop, h2]
    omega
  · rfl

/-- Witness for C7 at `m = 1`, `k = 1`: of two appended turns exactly the
second is retained. -/
theorem history_fifo_bound_witness :
    (runTurns 1 [sampleInput, sampleInput]).history =
      (allTurns 0 [sampleInput, sampleInput]).drop 1 ∧
    (runTurns 1 [sampleInput, sampleInput]).history.length = 1 :=
  history_fifo_bound.1 1 1 [sampleInput, sampleInput] (by decide) (by decide) rfl

/-- C8: with non-empty history and a stored previous intent, the
follow-up resolver rewrites `group_by` with at most one rule, chosen by
the fixed precedence "by month" before "by year" before "by region"
before "by customer"/"by segment": the result is one of the four rule
outputs or the unchanged previous grouping, each phrase wins exactly when
all earlier phrases are absent, no phrase leaves the copied grouping
unchanged, and the winner REPLACES the grouping; the concrete question
"show me by month and by region" yields `["month_name"]` only. -/
theorem follow_up_group_by_precedence :
    (∀ (mem : ConversationMemory) (question : String) (turn : ConversationTurn)
        (li : PIntent) (r : ResolvedIntent),
        mem.history.getLast? = some turn →
        turn.parsed_intent = some li →
        resolve_follow_up mem question = some r →
        ((r.group_by = ["month_name"] ∨ r.group_by = ["year"] ∨ r.group_by = ["region"] ∨
            r.group_by = ["customer_segment"] ∨ r.group_by = li.group_by) ∧
          (strContains (pyLower question) "by month" = true →
            r.group_by = ["month_name"]) ∧
          (strContains (pyLower question) "by month" = false →
            strContains (pyLower question) "by year" = true →
            r.group_by = ["year"]) ∧
          (strContains (pyLower question) "by month" = false →
            strContains (pyLower question) "by year" = false →
            strContains (pyLower question) "by region" = true →
            r.group_by = ["region"]) ∧
          (strContains (pyLower question) "by month" = false →
            strContains (pyLower question) "by year" = false →
            strContains (pyLower question) "by region" = false →
            (strContains (pyLower question) "by customer" = true ∨
              strContains (pyLower question) "by segment" = true) →
            r.group_by = ["customer_segment"]) ∧
          (strContains (pyLower question) "by month" = false →
            strContains (pyLower question) "by year" = false →
            strContains (pyLower question) "by region" = false →
            strContains (pyLower question) "by customer" = false →
            strContains (pyLower question) "by segment" = false →
            r.group_by = li.group_by))) ∧
    (resolve_follow_up sampleMemory "show me by month and by region").map
        (fun r => r.group_by) = some ["month_name"] := by
  constructor
  · intro mem question turn li r h1 h2 h3
    simp only [resolve_follow_up, h1, h2] at h3
    have hr : r = apply_filter_rule (pyLower question) (apply_time_rule (pyLower question)
        (apply_group_by_rule (pyLower question) (base_resolved mem li))) :=
      (Option.some.inj h3).symm
    have hgb : r.group_by =
        (apply_group_by_rule (pyLower question) (base_resolved mem li)).group_by := by
      rw [hr, apply_filter_rule_group_by, apply_time_rule_group_by]
    refine ⟨?_, ?_, ?_, ?_, ?_, ?_⟩
    · rw [hgb]
      have hcases := apply_group_by_rule_cases (pyLower question) (base_resolved mem li)
      simpa [base_resolved] using hcases
    · intro hmon
      rw [hgb, apply_group_by_rule_month _ _ hmon]
    · intro hmon hyear
      rw [hgb, apply_group_by_rule_year _ _ hmon hyear]
    · intro hmon hyear hreg
      rw [hgb, apply_group_by_rule_region _ _ hmon hyear hreg]
    · intro hmon hyear hreg hcust
      rw [hgb, apply_group_by_rule_customer _ _ hmon hyear hreg hcust]
    · intro hmon hyear hreg hcust hseg
      rw [hgb, apply_group_by_rule_none _ _ hmon hyear hreg hcust hseg]
      rfl
  · rfl

/-- Witness for C8: the month rule fires on the sample question, and the
year rule fires on a question where "by month" is absent. -/
theorem follow_up_group_by_precedence_witness :
    sampleResolved.group_by = ["month_name"] ∧ sampleResolvedYear.group_by = ["year"] :=
  ⟨(follow_up_group_by_precedence.1 sampleMemory "show me by month and by region"
      sampleTurn samplePIntent sampleResolved rfl rfl rfl).2.1 rfl,
    (follow_up_group_by_precedence.1 sampleMemory "show me by year and by region"
      sampleTurn samplePIntent sampleResolvedYear rfl rfl rfl).2.2.1 rfl rfl⟩

/-- C9 (amended): serializing the complete state to the persistence
document and loading it back always reproduces the identical turn list
(all fields) and turn counter, and reproduces the context snapshot with
its retained rows canonicalized leaf by leaf — `default=str` stores a
non-JSON-native leaf (date, Decimal) as its string rendering, which is
what reloads; the snapshot is reproduced IDENTICALLY exactly under the
condition that every retained row leaf is JSON-native. -/
theorem persistence_round_trip (mem target : ConversationMemory) :
    ((load_history target (save_history mem)).history = mem.history ∧
      (load_history target (save_history mem)).turn_counter = mem.turn_counter ∧
      (load_history target (save_history mem)).current_context =
        canonContextOpt mem.current_context) ∧
    (nativeContext mem.current_context = true →
      (load_history target (save_history mem)).current_context = mem.current_context) := by
  refine ⟨⟨?_, ?_, ?_⟩, ?_⟩
  · simp [save_history, load_history, decTurns_enc, decContext_enc, decNat]
  · simp [save_history, load_history, decTurns_enc, decContext_enc, decNat]
  · simp [save_history, load_history, decTurns_enc, decContext_enc, decNat]
  · intro h
    simp only [save_history, load_history, decTurns_enc, decContext_enc, decNat]
    exact canonContextOpt_native mem.current_context h

/-- Witness for C9 at a one-turn memory whose non-empty context holds
only JSON-native row values. -/
theorem persistence_round_trip_witness :
    (load_history (emptyMemory 3) (save_history persistedMemory)).history =
      persistedMemory.history ∧
    (load_history (emptyMemory 3) (save_history persistedMemory)).current_context =
      persistedMemory.current_context ∧
    (load_history (emptyMemory 3) (save_history persistedMemory)).turn_counter =
      persistedMemory.turn_counter := by
  have h := persistence_round_trip persistedMemory (emptyMemory 3)
  exact ⟨h.1.1, h.2 rfl, h.1.2.1⟩

/-- C9 counterexample to the claim as stated: a snapshot whose retained
row holds a DATE value is NOT reproduced identically — the date leaf
reloads as its string rendering — even though the turn list and the
counter are; so the round trip is not an identity on every state with a
non-empty snapshot. -/
theorem context_nonnative_not_identical :
    (load_history (emptyMemory 3) (save_history dateMemory)).current_context ≠
      dateMemory.current_context ∧
    (load_history (emptyMemory 3) (save_history dateMemory)).history =
      dateMemory.history ∧
    (load_history (emptyMemory 3) (save_history dateMemory)).turn_counter =
      dateMemory.turn_counter :=
  ⟨by decide, rfl, rfl⟩

/-- C10: when metrics, group-by and filters are empty and the time period
is absent, the attached explanation is exactly the fixed fallback "Simple
query". -/
theorem explanation_simple_query_fallback (sl : SemanticLayer) (intent : QueryIntent)
    (hm : intent.metrics = []) (hg : intent.group_by = []) (hf : intent.filters = [])
    (ht : intent.time_period = none) :
    (intent_to_sql sl intent).explanation = "Simple query" := by
  show generate_explanation intent = "Simple query"
  simp [generate_explanation, hm, hg, hf, ht]

/-- Witness for C10 at the empty intent. -/
theorem explanation_simple_query_fallback_witness :
    (intent_to_sql demoLayer (empty_intent "hi")).explanation = "Simple query" :=
  explanation_simple_query_fallback demoLayer (empty_intent "hi") rfl rfl rfl rfl

end ConvAI
